import Mathlib

/-!
Verification of the GPU MMU pagetable management layer of
`drivers/gpu/msm/kgsl_iommu.c` (IOMMU backend of the KGSL driver).

The C code is shallowly embedded: every controller operation becomes a pure
Lean function on an explicit state.  External collaborators (the platform
context lookup `msm_iommu_get_ctx`, the pagetable factory
`kgsl_mmu_getpagetable`, the hardware calls `iommu_attach_device`,
`iommu_unmap_range`, `iommu_map_range` and the idle wait `kgsl_idle`) are
passed in as oracle arguments giving their results.  A kernel `BUG_ON` (a
fault, not an error return) and dereferences of null pointers are modelled
by the operation returning `none`.
-/

namespace KgslIommu

/-- Linux error number `EINVAL`; the driver returns its negation. -/
def EINVAL : Int := 22

/-- Linux error number `ENOMEM`; the driver returns its negation. -/
def ENOMEM : Int := 12

/-- Modelled from the spec: `KGSL_IOMMU_MAX_DEVS_PER_UNIT`, the per-unit
maximum number of device contexts.  The header `kgsl_iommu.h` defining the
constant is not among the sources; the historical value for this platform
is 2.  The claims only use that exceeding it is rejected. -/
def KGSL_IOMMU_MAX_DEVS_PER_UNIT : Nat := 2

/-- Modelled from the spec: `KGSL_IOMMU_MAX_UNITS`, the maximum number of
translation units (header not among the sources; value 2 on this platform). -/
def KGSL_IOMMU_MAX_UNITS : Nat := 2

/-- Modelled from the spec: the USER context kind tag
(`KGSL_IOMMU_CONTEXT_USER`, header not among the sources). -/
def KGSL_IOMMU_CONTEXT_USER : Nat := 0

/-- Modelled from the spec: the PRIVILEGED context kind tag
(`KGSL_IOMMU_CONTEXT_PRIV`, header not among the sources). -/
def KGSL_IOMMU_CONTEXT_PRIV : Nat := 1

/-- Modelled from the spec: `KGSL_MMU_ALIGN_MASK`, the page-alignment mask
applied to GPU addresses (header `kgsl_mmu.h` not among the sources): it
clears the low 12 bits of a 32-bit address (4 KiB pages). -/
def KGSL_MMU_ALIGN_MASK : Nat := 0xFFFFF000

/-- IOMMU read-permission bit (`linux/iommu.h`). -/
def IOMMU_READ : Nat := 1

/-- IOMMU write-permission bit (`linux/iommu.h`). -/
def IOMMU_WRITE : Nat := 2

/-- One hardware device context inside a translation unit
(`struct kgsl_iommu_device`): resolved device handle (a pointer, modelled
as a numeric identity), the `attached` flag and the declared context kind. -/
structure KgslIommuDevice where
  dev : Nat
  attached : Bool
  ctx_id : Nat
deriving DecidableEq, Repr

/-- One translation unit (`struct kgsl_iommu_unit`): the ordered list of its
device contexts (`dev_count` is the list length). -/
structure KgslIommuUnit where
  dev : List KgslIommuDevice
deriving DecidableEq, Repr

/-- The controller-private state (`struct kgsl_iommu`): the ordered list of
translation units (`unit_count` is the list length). -/
structure KgslIommu where
  iommu_units : List KgslIommuUnit
deriving DecidableEq, Repr

/-- A pagetable (`struct kgsl_pagetable` as seen by this backend): its
`priv` field is the iommu domain pointer, modelled as a numeric identity
with `0` standing for the null pointer. -/
structure KgslPagetable where
  priv : Nat
deriving DecidableEq, Repr

/-- The device MMU state (`struct kgsl_mmu`): the `KGSL_FLAGS_STARTED` bit
of `flags`, the hardware pagetable pointer, the default pagetable pointer,
and the private IOMMU state (`none` before a successful init). -/
structure KgslMmu where
  started : Bool
  hwpagetable : Option KgslPagetable
  defaultpagetable : Option KgslPagetable
  priv : Option KgslIommu
deriving DecidableEq, Repr

/-- The MMU state before `kgsl_iommu_init` runs: nothing set up. -/
def initialMmu : KgslMmu := ⟨false, none, none, none⟩

/-- Clear the `attached` flag of every device of a unit (the inner loop of
`kgsl_detach_pagetable_iommu_domain`; it only issues `iommu_detach_device`
for devices whose flag is set, and the resulting flags are all false). -/
def detachUnit (u : KgslIommuUnit) : KgslIommuUnit :=
  ⟨u.dev.map (fun d => { d with attached := false })⟩

/-- Number of `iommu_detach_device` calls the detach loop issues for one
unit: one per device whose `attached` flag is set. -/
def countAttachedUnit (u : KgslIommuUnit) : Nat :=
  (u.dev.filter (fun d => d.attached)).length

/-- `kgsl_detach_pagetable_iommu_domain`: detach the current hardware
pagetable domain from every attached device of every unit.  `none` models
the `BUG_ON`s firing on a null `hwpagetable` or a null domain, or the
dereference of an uninitialised `mmu->priv`.  Returns the new state and the
number of `iommu_detach_device` calls issued. -/
def kgsl_detach_pagetable_iommu_domain (m : KgslMmu) : Option (KgslMmu × Nat) :=
  match m.hwpagetable, m.priv with
  | some pt, some iommu =>
      if pt.priv = 0 then none
      else some ({ m with priv := some ⟨iommu.iommu_units.map detachUnit⟩ },
                 (iommu.iommu_units.map countAttachedUnit).sum)
  | _, _ => none

/-- Inner loop of `kgsl_attach_pagetable_iommu_domain` over the devices of
one unit: each device with a clear `attached` flag gets an
`iommu_attach_device` call whose result is `res j` (0 = success); on the
first failure the loop stops (the C code `goto done`s out of both loops).
Returns the updated device list, the status, and the number of
`iommu_attach_device` calls issued. -/
def attachDevs (res : Nat → Int) : Nat → List KgslIommuDevice →
    List KgslIommuDevice × Int × Nat
  | _, [] => ([], 0, 0)
  | j, d :: rest =>
    if d.attached then
      let r := attachDevs res (j + 1) rest
      (d :: r.1, r.2.1, r.2.2)
    else if res j = 0 then
      let r := attachDevs res (j + 1) rest
      ({ d with attached := true } :: r.1, r.2.1, r.2.2 + 1)
    else
      (d :: rest, res j, 1)

/-- Outer loop of `kgsl_attach_pagetable_iommu_domain` over the units; the
oracle `res i j` gives the result of attaching device `j` of unit `i`. -/
def attachUnits (res : Nat → Nat → Int) : Nat → List KgslIommuUnit →
    List KgslIommuUnit × Int × Nat
  | _, [] => ([], 0, 0)
  | i, u :: rest =>
    let r := attachDevs (res i) 0 u.dev
    if r.2.1 = 0 then
      let r2 := attachUnits res (i + 1) rest
      (⟨r.1⟩ :: r2.1, r2.2.1, r.2.2 + r2.2.2)
    else
      (⟨r.1⟩ :: rest, r.2.1, r.2.2)

/-- `kgsl_attach_pagetable_iommu_domain`: attach the current hardware
pagetable domain to every not-yet-attached device, stopping at the first
failure.  `none` models the `BUG_ON`s on a null `hwpagetable` or null
domain, or an uninitialised `mmu->priv`. -/
def kgsl_attach_pagetable_iommu_domain (res : Nat → Nat → Int) (m : KgslMmu) :
    Option (KgslMmu × Int × Nat) :=
  match m.hwpagetable, m.priv with
  | some pt, some iommu =>
      if pt.priv = 0 then none
      else
        let r := attachUnits res 0 iommu.iommu_units
        some ({ m with priv := some ⟨r.1⟩ }, r.2.1, r.2.2)
  | _, _ => none

/-- Counts of the external calls a `kgsl_iommu_setstate` run issues:
`kgsl_idle` waits, `iommu_detach_device` calls and `iommu_attach_device`
calls. -/
structure CallStats where
  idleCalls : Nat
  detachCalls : Nat
  attachCalls : Nat
deriving DecidableEq, Repr

/-- Result of a non-faulting `kgsl_iommu_setstate` run: the new MMU state
and the external-call counts. -/
structure SetstateResult where
  mmu : KgslMmu
  stats : CallStats
deriving DecidableEq, Repr

/-- `kgsl_iommu_setstate`: switch the active pagetable.  If started and the
requested pagetable differs from the current one, the code calls
`kgsl_idle` (whose result `idleRes` it discards), detaches the old domain,
installs the new pointer, and, when it is non-null, attaches its domain
(discarding the attach status).  The `context_id` argument is unused by the
C function, as here. -/
def kgsl_iommu_setstate (idleRes : Int) (attachRes : Nat → Nat → Int)
    (pagetable : Option KgslPagetable) (context_id : Nat) (m : KgslMmu) :
    Option SetstateResult :=
  if m.started then
    if m.hwpagetable = pagetable then some ⟨m, ⟨0, 0, 0⟩⟩
    else
      match kgsl_detach_pagetable_iommu_domain m with
      | none => none
      | some (m1, nDet) =>
        match pagetable with
        | none => some ⟨{ m1 with hwpagetable := none }, ⟨1, nDet, 0⟩⟩
        | some p =>
          match kgsl_attach_pagetable_iommu_domain attachRes
              { m1 with hwpagetable := some p } with
          | none => none
          | some (m3, _ret, nAtt) => some ⟨m3, ⟨1, nDet, nAtt⟩⟩
  else some ⟨m, ⟨0, 0, 0⟩⟩

/-- `kgsl_iommu_start`: no-op if started; otherwise obtain the default
pagetable (`getpt` is the result of `kgsl_mmu_getpagetable` when the field
is still null; `-ENOMEM` if that yields null), install it as the hardware
pagetable and attach it.  On attach failure, roll back: detach everything
attached, clear the hardware pagetable, and return the attach status
without setting the started flag. -/
def kgsl_iommu_start (getpt : Option KgslPagetable) (attachRes : Nat → Nat → Int)
    (m : KgslMmu) : Option (KgslMmu × Int) :=
  if m.started then some (m, 0)
  else
    match m.defaultpagetable.orElse (fun _ => getpt) with
    | none => some (m, -ENOMEM)
    | some p =>
      match kgsl_attach_pagetable_iommu_domain attachRes
          { m with defaultpagetable := some p, hwpagetable := some p } with
      | none => none
      | some (m2, ret, _) =>
        if ret = 0 then some ({ m2 with started := true }, 0)
        else
          match kgsl_detach_pagetable_iommu_domain m2 with
          | none => none
          | some (m3, _) => some ({ m3 with hwpagetable := none }, ret)

/-- `kgsl_iommu_stop`: if started, detach everything, clear the hardware
pagetable pointer and the started flag; always returns 0 when it returns. -/
def kgsl_iommu_stop (m : KgslMmu) : Option (KgslMmu × Int) :=
  if m.started then
    match kgsl_detach_pagetable_iommu_domain m with
    | none => none
    | some (m1, _) => some ({ m1 with hwpagetable := none, started := false }, 0)
  else some (m, 0)

/-- `kgsl_iommu_get_current_ptbase`: returns `(unsigned int)hwpagetable->priv`.
The dereference is unconditional, so a null `hwpagetable` is a fault,
modelled by `none`. -/
def kgsl_iommu_get_current_ptbase (m : KgslMmu) : Option Nat :=
  match m.hwpagetable with
  | none => none
  | some pt => some pt.priv

/-- One entry of the platform descriptor for a unit
(`struct kgsl_iommu_ctx` of the platform data): the context name (`none`
models a NULL name, which the discovery loop skips) and the declared
context kind. -/
structure KgslIommuCtx where
  iommu_ctx_name : Option String
  ctx_id : Nat
deriving DecidableEq, Repr

/-- The platform descriptor for one unit (`struct kgsl_device_iommu_data`):
the ordered context entries (`iommu_ctx_count` is the list length). -/
structure KgslDeviceIommuData where
  iommu_ctxs : List KgslIommuCtx
deriving DecidableEq, Repr

/-- The discovery loop of `_get_iommu_ctxs` over one unit's context
entries: a NULL name is skipped; `lookup` models `msm_iommu_get_ctx`,
failure (`none`) is `-EINVAL`; a kind other than USER or PRIVILEGED is
`-EINVAL`; otherwise the resolved device is appended with a clear
`attached` flag. -/
def getIommuCtxsLoop (lookup : String → Option Nat) :
    List KgslIommuCtx → Except Int (List KgslIommuDevice)
  | [] => .ok []
  | c :: rest =>
    match c.iommu_ctx_name with
    | none => getIommuCtxsLoop lookup rest
    | some name =>
      match lookup name with
      | none => .error (-EINVAL)
      | some h =>
        if c.ctx_id ≠ KGSL_IOMMU_CONTEXT_USER ∧ c.ctx_id ≠ KGSL_IOMMU_CONTEXT_PRIV then
          .error (-EINVAL)
        else
          match getIommuCtxsLoop lookup rest with
          | .error e => .error e
          | .ok ds => .ok (⟨h, false, c.ctx_id⟩ :: ds)

/-- `_get_iommu_ctxs`: reject a unit declaring more contexts than
`KGSL_IOMMU_MAX_DEVS_PER_UNIT` with `-EINVAL`, otherwise run the discovery
loop and build the unit. -/
def get_iommu_ctxs (lookup : String → Option Nat) (data : KgslDeviceIommuData) :
    Except Int KgslIommuUnit :=
  if KGSL_IOMMU_MAX_DEVS_PER_UNIT < data.iommu_ctxs.length then .error (-EINVAL)
  else
    match getIommuCtxsLoop lookup data.iommu_ctxs with
    | .error e => .error e
    | .ok ds => .ok ⟨ds⟩

/-- The unit loop of `kgsl_get_iommu_ctxt`: discover each unit in order,
stopping at the first error. -/
def getIommuCtxtLoop (lookup : String → Option Nat) :
    List KgslDeviceIommuData → Except Int (List KgslIommuUnit)
  | [] => .ok []
  | d :: rest =>
    match get_iommu_ctxs lookup d with
    | .error e => .error e
    | .ok u =>
      match getIommuCtxtLoop lookup rest with
      | .error e => .error e
      | .ok us => .ok (u :: us)

/-- `kgsl_get_iommu_ctxt`: reject more than `KGSL_IOMMU_MAX_UNITS` units
with `-EINVAL`, otherwise discover every unit. -/
def kgsl_get_iommu_ctxt (lookup : String → Option Nat)
    (pdata : List KgslDeviceIommuData) : Except Int KgslIommu :=
  if KGSL_IOMMU_MAX_UNITS < pdata.length then .error (-EINVAL)
  else
    match getIommuCtxtLoop lookup pdata with
    | .error e => .error e
    | .ok us => .ok ⟨us⟩

/-- `kgsl_iommu_init`: allocate the private state (`allocOk` models the
`kzalloc` outcome; failure is `-ENOMEM` with the state untouched), then run
context discovery; on a discovery error the private state is freed and
`mmu->priv` reset to null, and the error is returned. -/
def kgsl_iommu_init (allocOk : Bool) (lookup : String → Option Nat)
    (pdata : List KgslDeviceIommuData) (m : KgslMmu) : KgslMmu × Int :=
  if !allocOk then (m, -ENOMEM)
  else
    match kgsl_get_iommu_ctxt lookup pdata with
    | .error e => ({ m with priv := none }, e)
    | .ok iommu => ({ m with priv := some iommu }, 0)

/-- A backing descriptor (`struct kgsl_memdesc` as used here): the GPU
virtual base address and the size in bytes (both `unsigned int` in this
code). -/
structure KgslMemdesc where
  gpuaddr : Nat
  size : Nat
deriving DecidableEq, Repr

/-- Outcome of `kgsl_iommu_unmap`: the value returned to the caller and the
`iommu_unmap_range` call issued, if any, as (domain, address, length). -/
structure UnmapOutcome where
  ret : Int
  call : Option (Nat × Nat × Nat)
deriving DecidableEq, Repr

/-- `kgsl_iommu_unmap`: mask the descriptor's address with
`KGSL_MMU_ALIGN_MASK`; if the masked address or the size is zero, return 0
without touching the domain; otherwise call `iommu_unmap_range` (result
`unmapRes`, only logged) and return 0 regardless. -/
def kgsl_iommu_unmap (unmapRes : Int) (domain : Nat) (memdesc : KgslMemdesc) :
    UnmapOutcome :=
  let range := memdesc.size
  let gpuaddr := memdesc.gpuaddr &&& KGSL_MMU_ALIGN_MASK
  if range = 0 ∨ gpuaddr = 0 then ⟨0, none⟩
  else ⟨0, some (domain, gpuaddr, range)⟩

/-- The `iommu_map_range` request `kgsl_iommu_map` issues: domain, start
address, length and the protection flags actually requested. -/
structure MapCall where
  domain : Nat
  addr : Nat
  size : Nat
  flags : Nat
deriving DecidableEq, Repr

/-- Outcome of a non-faulting `kgsl_iommu_map`: the status returned to the
caller (the underlying result verbatim) and the request issued. -/
structure MapOutcome where
  ret : Int
  call : MapCall
deriving DecidableEq, Repr

/-- `kgsl_iommu_map`: `BUG_ON(NULL == domain)` — a null domain faults,
modelled by `none`.  Otherwise issue `iommu_map_range` over the
descriptor's range with flags fixed to `IOMMU_READ | IOMMU_WRITE`; the
caller's `protflags` argument is not used.  `mapRes` is the underlying
result, returned verbatim. -/
def kgsl_iommu_map (mapRes : Int) (domain : Nat) (memdesc : KgslMemdesc)
    (protflags : Nat) : Option MapOutcome :=
  if domain = 0 then none
  else some ⟨mapRes, ⟨domain, memdesc.gpuaddr, memdesc.size, IOMMU_READ ||| IOMMU_WRITE⟩⟩

/-- A controller operation together with the oracle results of the external
calls it makes. -/
inductive Op where
  | init (allocOk : Bool) (lookup : String → Option Nat)
      (pdata : List KgslDeviceIommuData)
  | start (getpt : Option KgslPagetable) (attachRes : Nat → Nat → Int)
  | stop
  | setstate (idleRes : Int) (attachRes : Nat → Nat → Int)
      (pt : Option KgslPagetable)

/-- Apply one operation to an MMU state; `none` propagates a fault. -/
def step (m : KgslMmu) : Op → Option KgslMmu
  | .init aOk lk pd => some (kgsl_iommu_init aOk lk pd m).1
  | .start g ar => (kgsl_iommu_start g ar m).map (fun r => r.1)
  | .stop => (kgsl_iommu_stop m).map (fun r => r.1)
  | .setstate ir ar pt => (kgsl_iommu_setstate ir ar pt 0 m).map (fun r => r.mmu)

/-- Run a sequence of operations from a state. -/
def run : List Op → KgslMmu → Option KgslMmu
  | [], m => some m
  | op :: ops, m =>
    match step m op with
    | none => none
    | some m1 => run ops m1

/-- Every device context of every unit has its attached flag set. -/
def allAttachedB (i : KgslIommu) : Bool :=
  i.iommu_units.all (fun u => u.dev.all (fun d => d.attached))

/-- No device context of any unit has its attached flag set. -/
def noneAttachedB (i : KgslIommu) : Bool :=
  i.iommu_units.all (fun u => u.dev.all (fun d => !d.attached))

/-- The controller invariant of the spec: started implies a non-null active
pagetable with every context attached; not started implies no context
attached.  States with uninitialised private state have no contexts. -/
def mmuInvB (m : KgslMmu) : Bool :=
  if m.started then
    m.hwpagetable.isSome &&
      (match m.priv with
       | none => true
       | some i => allAttachedB i)
  else
    match m.priv with
    | none => true
    | some i => noneAttachedB i

/-- Sequence restriction for the amended invariant claim: no re-init, and
every pagetable switch passes a non-null pagetable and has all its attach
calls succeed. -/
def opOk : Op → Prop
  | .init _ _ _ => False
  | .start _ _ => True
  | .stop => True
  | .setstate _ ar pt => pt.isSome = true ∧ ∀ a b, ar a b = 0

/-- The attach oracle that always succeeds. -/
def arZero : Nat → Nat → Int := fun _ _ => 0

/-- An attach oracle that fails every attach call with -7. -/
def arFail : Nat → Nat → Int := fun _ _ => -7

/-- A concrete run: successful init (one unit, one USER context) and start
on pagetable 5, then a switch to the null pagetable while started. -/
def cexOps : List Op :=
  [Op.init true (fun _ => some 1) [⟨[⟨some "ctxA", KGSL_IOMMU_CONTEXT_USER⟩]⟩],
   Op.start (some ⟨5⟩) arZero,
   Op.setstate 0 arZero none]

/-- The state `cexOps` reaches: still started, but with a null hardware
pagetable and nothing attached. -/
def startedNullHwMmu : KgslMmu :=
  ⟨true, none, some ⟨5⟩, some ⟨[⟨[⟨1, false, KGSL_IOMMU_CONTEXT_USER⟩]⟩]⟩⟩

/-- A started, fully attached one-unit one-context state on pagetable 5. -/
def startedAttachedMmu : KgslMmu :=
  ⟨true, some ⟨5⟩, some ⟨5⟩, some ⟨[⟨[⟨1, true, KGSL_IOMMU_CONTEXT_USER⟩]⟩]⟩⟩

/-- `startedAttachedMmu` after a successful stop. -/
def stoppedMmu : KgslMmu :=
  ⟨false, none, some ⟨5⟩, some ⟨[⟨[⟨1, false, KGSL_IOMMU_CONTEXT_USER⟩]⟩]⟩⟩

/-- The state after switching `startedAttachedMmu` to pagetable 7. -/
def switchedTo7Mmu : KgslMmu :=
  ⟨true, some ⟨7⟩, some ⟨5⟩, some ⟨[⟨[⟨1, true, KGSL_IOMMU_CONTEXT_USER⟩]⟩]⟩⟩

/-- The full setstate outcome of that switch: one idle wait, one detach
call, one attach call. -/
def switchedMmuResult : SetstateResult := ⟨switchedTo7Mmu, ⟨1, 1, 1⟩⟩

/-- A freshly initialised, never started one-unit one-context state. -/
def postInitMmu : KgslMmu :=
  ⟨false, none, none, some ⟨[⟨[⟨1, false, KGSL_IOMMU_CONTEXT_USER⟩]⟩]⟩⟩

/-- A context entry that the discovery loop must reject: a named context
whose platform lookup fails, or whose declared kind is neither USER nor
PRIVILEGED. -/
def badCtx (lookup : String → Option Nat) (c : KgslIommuCtx) : Prop :=
  ∃ name, c.iommu_ctx_name = some name ∧
    (lookup name = none ∨
      (c.ctx_id ≠ KGSL_IOMMU_CONTEXT_USER ∧ c.ctx_id ≠ KGSL_IOMMU_CONTEXT_PRIV))

/-- A unit descriptor that init must reject: too many contexts, or some
rejected context entry. -/
def badUnit (lookup : String → Option Nat) (d : KgslDeviceIommuData) : Prop :=
  KGSL_IOMMU_MAX_DEVS_PER_UNIT < d.iommu_ctxs.length ∨
    ∃ c ∈ d.iommu_ctxs, badCtx lookup c

theorem noneAttachedB_detach (i : KgslIommu) :
    noneAttachedB ⟨i.iommu_units.map detachUnit⟩ = true := by
  simp only [noneAttachedB, List.all_map, List.all_eq_true, Function.comp]
  intro u _
  simp [detachUnit, List.all_map, Function.comp]

theorem detach_spec (m m1 : KgslMmu) (n : Nat)
    (h : kgsl_detach_pagetable_iommu_domain m = some (m1, n)) :
    m1.started = m.started ∧ m1.hwpagetable = m.hwpagetable ∧
    m1.defaultpagetable = m.defaultpagetable ∧
    ∃ i1, m1.priv = some i1 ∧ noneAttachedB i1 = true := by
  unfold kgsl_detach_pagetable_iommu_domain at h
  cases hhw : m.hwpagetable with
  | none => rw [hhw] at h; cases hp : m.priv <;> rw [hp] at h <;> simp at h
  | some pt =>
    rw [hhw] at h
    cases hp : m.priv with
    | none => rw [hp] at h; simp at h
    | some i =>
      rw [hp] at h
      by_cases h0 : pt.priv = 0
      · simp [h0] at h
      · simp only [h0, if_false] at h
        obtain ⟨h1, _⟩ := Prod.mk.injEq .. ▸ Option.some.injEq .. ▸ h
        subst h1
        exact ⟨rfl, rfl, rfl, ⟨i.iommu_units.map detachUnit⟩, rfl, noneAttachedB_detach i⟩

theorem attachDevs_ok_all (res : Nat → Int) (j : Nat) (ds : List KgslIommuDevice)
    (h : (attachDevs res j ds).2.1 = 0) :
    (attachDevs res j ds).1.all (fun d => d.attached) = true := by
  induction ds generalizing j with
  | nil => simp [attachDevs]
  | cons d rest ih =>
    by_cases hd : d.attached
    · have hrec := ih (j + 1) (by simpa [attachDevs, hd] using h)
      simp [attachDevs, hd, hrec]
    · by_cases hr : res j = 0
      · have hrec := ih (j + 1) (by simpa [attachDevs, hd, hr] using h)
        simp [attachDevs, hd, hr, hrec]
      · simp only [attachDevs, hd, Bool.false_eq_true, if_false, hr] at h

theorem attachDevs_zero (res : Nat → Int) (hres : ∀ j, res j = 0) (j : Nat)
    (ds : List KgslIommuDevice) : (attachDevs res j ds).2.1 = 0 := by
  induction ds generalizing j with
  | nil => simp [attachDevs]
  | cons d rest ih =>
    by_cases hd : d.attached
    · simp only [attachDevs, hd, if_true]
      exact ih (j + 1)
    · simp only [attachDevs, hd, Bool.false_eq_true, if_false, hres j, if_true]
      exact ih (j + 1)

theorem attachUnits_ok_all (res : Nat → Nat → Int) (i : Nat) (us : List KgslIommuUnit)
    (h : (attachUnits res i us).2.1 = 0) :
    (attachUnits res i us).1.all (fun u => u.dev.all (fun d => d.attached)) = true := by
  induction us generalizing i with
  | nil => simp [attachUnits]
  | cons u rest ih =>
    by_cases h0 : (attachDevs (res i) 0 u.dev).2.1 = 0
    · simp only [attachUnits, h0, if_true] at h ⊢
      simp only [List.all_cons, Bool.and_eq_true]
      exact ⟨attachDevs_ok_all _ _ _ h0, ih (i + 1) h⟩
    · simp only [attachUnits, h0, if_false] at h

theorem attachUnits_zero (res : Nat → Nat → Int) (hres : ∀ a b, res a b = 0)
    (i : Nat) (us : List KgslIommuUnit) : (attachUnits res i us).2.1 = 0 := by
  induction us generalizing i with
  | nil => simp [attachUnits]
  | cons u rest ih =>
    have h0 := attachDevs_zero (res i) (hres i) 0 u.dev
    simp [attachUnits, h0, ih (i + 1)]

theorem attach_spec (res : Nat → Nat → Int) (m m2 : KgslMmu) (ret : Int) (n : Nat)
    (h : kgsl_attach_pagetable_iommu_domain res m = some (m2, ret, n)) :
    m2.started = m.started ∧ m2.hwpagetable = m.hwpagetable ∧
    m2.defaultpagetable = m.defaultpagetable ∧
    ∃ pt i, m.hwpagetable = some pt ∧ pt.priv ≠ 0 ∧ m.priv = some i ∧
      m2.priv = some ⟨(attachUnits res 0 i.iommu_units).1⟩ ∧
      ret = (attachUnits res 0 i.iommu_units).2.1 := by
  unfold kgsl_attach_pagetable_iommu_domain at h
  cases hhw : m.hwpagetable with
  | none => rw [hhw] at h; cases hp : m.priv <;> rw [hp] at h <;> simp at h
  | some pt =>
    rw [hhw] at h
    cases hp : m.priv with
    | none => rw [hp] at h; simp at h
    | some i =>
      rw [hp] at h
      by_cases h0 : pt.priv = 0
      · simp [h0] at h
      · simp only [h0, if_false, Option.some.injEq, Prod.mk.injEq] at h
        obtain ⟨h1, h2, _⟩ := h
        subst h1; subst h2
        exact ⟨rfl, rfl, rfl, pt, i, rfl, h0, rfl, rfl, rfl⟩

theorem attach_ok_allAttached (res : Nat → Nat → Int) (m m2 : KgslMmu) (n : Nat)
    (h : kgsl_attach_pagetable_iommu_domain res m = some (m2, 0, n)) :
    ∃ i2, m2.priv = some i2 ∧ allAttachedB i2 = true := by
  obtain ⟨-, -, -, pt, i, -, -, -, hpriv, hret⟩ := attach_spec res m m2 0 n h
  exact ⟨_, hpriv, attachUnits_ok_all res 0 i.iommu_units hret.symm⟩

theorem start_preserves (g : Option KgslPagetable) (ar : Nat → Nat → Int)
    (m m' : KgslMmu) (ret : Int) (hInv : mmuInvB m = true)
    (h : kgsl_iommu_start g ar m = some (m', ret)) : mmuInvB m' = true := by
  unfold kgsl_iommu_start at h
  split at h
  · simp only [Option.some.injEq, Prod.mk.injEq] at h
    rw [← h.1]; exact hInv
  · next hs =>
    split at h
    · simp only [Option.some.injEq, Prod.mk.injEq] at h
      rw [← h.1]; exact hInv
    · next p hd =>
      split at h
      · exact absurd h (by simp)
      · next m2 aret k ha =>
        split at h
        · next hr =>
          simp only [Option.some.injEq, Prod.mk.injEq] at h
          subst hr
          obtain ⟨i2, hpriv, hall⟩ := attach_ok_allAttached ar _ m2 k ha
          obtain ⟨-, hhw, -, -⟩ := attach_spec ar _ m2 0 k ha
          rw [← h.1]
          simp [mmuInvB, hhw, hpriv, hall]
        · next hr =>
          split at h
          · exact absurd h (by simp)
          · next m3 k2 hdet =>
            simp only [Option.some.injEq, Prod.mk.injEq] at h
            obtain ⟨hst3, -, -, i3, hpriv3, hnone3⟩ := detach_spec m2 m3 k2 hdet
            obtain ⟨hst2, -, -, -⟩ := attach_spec ar _ m2 aret k ha
            rw [← h.1]
            have hf : m3.started = false := by
              rw [hst3, hst2]
              simpa using hs
            simp [mmuInvB, hf, hpriv3, hnone3]

theorem stop_preserves (m m' : KgslMmu) (ret : Int) (hInv : mmuInvB m = true)
    (h : kgsl_iommu_stop m = some (m', ret)) : mmuInvB m' = true := by
  unfold kgsl_iommu_stop at h
  split at h
  · split at h
    · exact absurd h (by simp)
    · next m1 k hdet =>
      simp only [Option.some.injEq, Prod.mk.injEq] at h
      obtain ⟨-, -, -, i1, hpriv1, hnone1⟩ := detach_spec m m1 k hdet
      rw [← h.1]
      simp [mmuInvB, hpriv1, hnone1]
  · simp only [Option.some.injEq, Prod.mk.injEq] at h
    rw [← h.1]; exact hInv

theorem setstate_preserves (ir : Int) (ar : Nat → Nat → Int)
    (pt : Option KgslPagetable) (cid : Nat) (m : KgslMmu) (r : SetstateResult)
    (hpt : pt.isSome = true) (har : ∀ a b, ar a b = 0) (hInv : mmuInvB m = true)
    (h : kgsl_iommu_setstate ir ar pt cid m = some r) : mmuInvB r.mmu = true := by
  obtain ⟨p, rfl⟩ := Option.isSome_iff_exists.mp hpt
  unfold kgsl_iommu_setstate at h
  split at h
  · next hs =>
    split at h
    · next heq =>
      simp only [Option.some.injEq] at h
      rw [← h]; exact hInv
    · next heq =>
      split at h
      · exact absurd h (by simp)
      · next m1 nDet hdet =>
        split at h
        · next heqn => exact Option.noConfusion heqn
        · next p' heqs =>
          injection heqs with hpp
          subst hpp
          split at h
          · exact absurd h (by simp)
          · next m3 aret nAtt ha =>
            simp only [Option.some.injEq] at h
            obtain ⟨hst3, hhw3, -, pt', i', -, -, -, -, hret⟩ :=
              attach_spec ar _ m3 aret nAtt ha
            obtain ⟨hst1, -, -, -⟩ := detach_spec m m1 nDet hdet
            have hret0 : aret = 0 := by
              rw [hret]; exact attachUnits_zero ar har 0 _
            subst hret0
            obtain ⟨i3, hpriv3, hall3⟩ := attach_ok_allAttached ar _ m3 nAtt ha
            have hst : m3.started = true := by
              rw [hst3]
              show ({ m1 with hwpagetable := some p } : KgslMmu).started = true
              rw [show ({ m1 with hwpagetable := some p } : KgslMmu).started = m1.started from
                rfl, hst1, hs]
            rw [← h]
            simp [mmuInvB, hst, hhw3, hpriv3, hall3]
  · simp only [Option.some.injEq] at h
    rw [← h]; exact hInv

theorem getIommuCtxsLoop_unattached (lookup : String → Option Nat)
    (ctxs : List KgslIommuCtx) (ds : List KgslIommuDevice)
    (h : getIommuCtxsLoop lookup ctxs = .ok ds) :
    ds.all (fun d => !d.attached) = true := by
  induction ctxs generalizing ds with
  | nil =>
    simp only [getIommuCtxsLoop, Except.ok.injEq] at h
    rw [← h]; simp
  | cons c rest ih =>
    unfold getIommuCtxsLoop at h
    split at h
    · exact ih ds h
    · split at h
      · exact absurd h (by simp)
      · split at h
        · exact absurd h (by simp)
        · split at h
          · exact absurd h (by simp)
          · next ds' hrec =>
            simp only [Except.ok.injEq] at h
            rw [← h]
            simp only [List.all_cons, Bool.and_eq_true]
            exact ⟨rfl, ih ds' hrec⟩

theorem get_iommu_ctxs_unattached (lookup : String → Option Nat)
    (d : KgslDeviceIommuData) (u : KgslIommuUnit)
    (h : get_iommu_ctxs lookup d = .ok u) :
    u.dev.all (fun x => !x.attached) = true := by
  unfold get_iommu_ctxs at h
  split at h
  · exact absurd h (by simp)
  · split at h
    · exact absurd h (by simp)
    · next ds hloop =>
      simp only [Except.ok.injEq] at h
      rw [← h]
      exact getIommuCtxsLoop_unattached lookup d.iommu_ctxs ds hloop

theorem getIommuCtxtLoop_unattached (lookup : String → Option Nat)
    (pdata : List KgslDeviceIommuData) (us : List KgslIommuUnit)
    (h : getIommuCtxtLoop lookup pdata = .ok us) :
    noneAttachedB ⟨us⟩ = true := by
  induction pdata generalizing us with
  | nil =>
    simp only [getIommuCtxtLoop, Except.ok.injEq] at h
    rw [← h]; simp [noneAttachedB]
  | cons d rest ih =>
    unfold getIommuCtxtLoop at h
    split at h
    · exact absurd h (by simp)
    · next u hu =>
      split at h
      · exact absurd h (by simp)
      · next us' hrec =>
        simp only [Except.ok.injEq] at h
        rw [← h]
        have hudev := get_iommu_ctxs_unattached lookup d u hu
        have hrest := ih us' hrec
        simp only [noneAttachedB, List.all_cons, Bool.and_eq_true] at *
        exact ⟨hudev, hrest⟩

theorem get_iommu_ctxt_unattached (lookup : String → Option Nat)
    (pdata : List KgslDeviceIommuData) (iommu : KgslIommu)
    (h : kgsl_get_iommu_ctxt lookup pdata = .ok iommu) :
    noneAttachedB iommu = true := by
  unfold kgsl_get_iommu_ctxt at h
  split at h
  · exact absurd h (by simp)
  · split at h
    · exact absurd h (by simp)
    · next us hloop =>
      simp only [Except.ok.injEq] at h
      rw [← h]
      exact getIommuCtxtLoop_unattached lookup pdata us hloop

theorem init_inv (aOk : Bool) (lookup : String → Option Nat)
    (pdata : List KgslDeviceIommuData) (m : KgslMmu)
    (hs : m.started = false) (hp : m.priv = none) :
    mmuInvB (kgsl_iommu_init aOk lookup pdata m).1 = true := by
  unfold kgsl_iommu_init
  split
  · simp [mmuInvB, hs, hp]
  · split
    · simp [mmuInvB, hs]
    · next iommu hc =>
      simp [mmuInvB, hs, get_iommu_ctxt_unattached lookup pdata iommu hc]

theorem run_preserves (ops : List Op) (m m' : KgslMmu) (hInv : mmuInvB m = true)
    (hops : ∀ op ∈ ops, opOk op) (h : run ops m = some m') : mmuInvB m' = true := by
  induction ops generalizing m with
  | nil =>
    simp only [run, Option.some.injEq] at h
    rw [← h]; exact hInv
  | cons op ops ih =>
    unfold run at h
    cases hstep : step m op with
    | none => rw [hstep] at h; exact Option.noConfusion h
    | some m1 =>
      rw [hstep] at h
      have hruns : run ops m1 = some m' := h
      have hops' : ∀ o ∈ ops, opOk o := fun o ho => hops o (List.mem_cons_of_mem _ ho)
      have hop := hops op (List.mem_cons_self _ _)
      have hInv1 : mmuInvB m1 = true := by
        cases op with
        | init aOk lk pd => exact absurd hop (by simp [opOk])
        | start g ar =>
          simp only [step] at hstep
          cases hrun : kgsl_iommu_start g ar m with
          | none => rw [hrun] at hstep; exact Option.noConfusion hstep
          | some r =>
            rw [hrun] at hstep
            exact Option.some.inj hstep ▸ start_preserves g ar m r.1 r.2 hInv (by rw [hrun])
        | stop =>
          simp only [step] at hstep
          cases hrun : kgsl_iommu_stop m with
          | none => rw [hrun] at hstep; exact Option.noConfusion hstep
          | some r =>
            rw [hrun] at hstep
            exact Option.some.inj hstep ▸ stop_preserves m r.1 r.2 hInv (by rw [hrun])
        | setstate ir ar pt =>
          simp only [step] at hstep
          cases hrun : kgsl_iommu_setstate ir ar pt 0 m with
          | none => rw [hrun] at hstep; exact Option.noConfusion hstep
          | some r =>
            rw [hrun] at hstep
            obtain ⟨hpt, har⟩ := hop
            exact Option.some.inj hstep ▸
              setstate_preserves ir ar pt 0 m r hpt har hInv (by rw [hrun])
      exact ih m1 hInv1 hops' hruns

/-- C1 counterexample: the invariant does not hold for every operation
sequence.  After a successful init and start, `kgsl_iommu_setstate` called
with a null pagetable (the code explicitly allows this: it only attaches
when the new pointer is non-null) leaves the started flag set while the
hardware pagetable is null and every context detached, so the stated
invariant is false in the reached state. -/
theorem mmu_invariant_cex :
    run cexOps initialMmu = some startedNullHwMmu ∧
    startedNullHwMmu.started = true ∧
    startedNullHwMmu.hwpagetable = none ∧
    mmuInvB startedNullHwMmu = false := by decide

/-- C1 (amended): for every sequence that performs one init first and then
any start / stop / setActivePagetable operations in which every
setActivePagetable call passes a non-null pagetable and all its attach
calls succeed, every non-faulting run ends in a state satisfying the
invariant: started implies a non-null active pagetable with every context
of every unit attached, and not started implies no context attached. -/
theorem mmu_invariant_restricted (aOk : Bool) (lookup : String → Option Nat)
    (pdata : List KgslDeviceIommuData) (ops : List Op) (m' : KgslMmu)
    (hops : ∀ op ∈ ops, opOk op)
    (h : run (Op.init aOk lookup pdata :: ops) initialMmu = some m') :
    mmuInvB m' = true := by
  unfold run at h
  have hstep : step initialMmu (Op.init aOk lookup pdata) =
      some (kgsl_iommu_init aOk lookup pdata initialMmu).1 := rfl
  rw [hstep] at h
  exact run_preserves ops _ m' (init_inv aOk lookup pdata initialMmu rfl rfl) hops h

/-- Witness for C1: a concrete init / start / switch-to-pagetable-7 run
satisfies the side conditions and its final state satisfies the
invariant. -/
theorem mmu_invariant_restricted_witness : mmuInvB switchedTo7Mmu = true := by
  have hops : ∀ op ∈ [Op.start (some ⟨5⟩) arZero, Op.setstate 0 arZero (some ⟨7⟩)],
      opOk op := by
    intro op hop
    rcases List.mem_cons.mp hop with rfl | hop
    · trivial
    rcases List.mem_cons.mp hop with rfl | hop
    · exact ⟨rfl, fun _ _ => rfl⟩
    · exact absurd hop (by simp)
  exact mmu_invariant_restricted true (fun _ => some 1)
    [⟨[⟨some "ctxA", KGSL_IOMMU_CONTEXT_USER⟩]⟩]
    [Op.start (some ⟨5⟩) arZero, Op.setstate 0 arZero (some ⟨7⟩)]
    switchedTo7Mmu hops (by decide)

theorem setstate_some_spec (ir : Int) (ar : Nat → Nat → Int)
    (pt : Option KgslPagetable) (cid : Nat) (m : KgslMmu) (r : SetstateResult)
    (h : kgsl_iommu_setstate ir ar pt cid m = some r) :
    r.mmu.started = m.started ∧
    (m.started = false → r = ⟨m, ⟨0, 0, 0⟩⟩) ∧
    (m.started = true → r.mmu.hwpagetable = pt) := by
  unfold kgsl_iommu_setstate at h
  split at h
  · next hs =>
    split at h
    · next heq =>
      simp only [Option.some.injEq] at h
      rw [← h]
      exact ⟨rfl, fun hf => absurd (hf ▸ hs) Bool.false_ne_true, fun _ => heq⟩
    · next heq =>
      split at h
      · exact absurd h (by simp)
      · next m1 nDet hdet =>
        obtain ⟨hst1, -, -, -⟩ := detach_spec m m1 nDet hdet
        split at h
        · next =>
          simp only [Option.some.injEq] at h
          rw [← h]
          exact ⟨hst1, fun hf => absurd (hf ▸ hs) Bool.false_ne_true, fun _ => rfl⟩
        · next x p =>
          split at h
          · exact absurd h (by simp)
          · next m3 aret nAtt ha =>
            simp only [Option.some.injEq] at h
            obtain ⟨hst3, hhw3, -, -⟩ := attach_spec ar _ m3 aret nAtt ha
            rw [← h]
            refine ⟨by rw [hst3, ← hst1],
              fun hf => absurd (hf ▸ hs) Bool.false_ne_true, fun _ => by rw [hhw3]⟩
  · next hs =>
    simp only [Option.some.injEq] at h
    rw [← h]
    have hs' : m.started = false := by simpa using hs
    exact ⟨rfl, fun _ => rfl, fun ht => absurd (hs' ▸ ht) Bool.false_ne_true⟩

theorem setstate_not_started_noop (ir : Int) (ar : Nat → Nat → Int)
    (pt : Option KgslPagetable) (cid : Nat) (m : KgslMmu) (hs : m.started = false) :
    kgsl_iommu_setstate ir ar pt cid m = some ⟨m, ⟨0, 0, 0⟩⟩ := by
  simp [kgsl_iommu_setstate, hs]

theorem setstate_eq_noop (ir : Int) (ar : Nat → Nat → Int)
    (pt : Option KgslPagetable) (cid : Nat) (m : KgslMmu)
    (heq : m.hwpagetable = pt) :
    kgsl_iommu_setstate ir ar pt cid m = some ⟨m, ⟨0, 0, 0⟩⟩ := by
  by_cases hs : m.started = true
  · simp [kgsl_iommu_setstate, hs, heq]
  · simp [kgsl_iommu_setstate, hs]

/-- C2 counterexample: the claim that a timed-out idle-wait aborts the
switch is false.  `kgsl_iommu_setstate` discards the `kgsl_idle` result, so
with an idle result of -110 (timeout) on a started controller the switch
from pagetable 5 to pagetable 7 is still performed: `currentBaseToken`
changes from 5 to 7, the call faults nowhere and reports no error (the C
function returns void). -/
theorem setstate_timeout_switch_cex :
    kgsl_iommu_get_current_ptbase startedAttachedMmu = some 5 ∧
    kgsl_iommu_setstate (-110) arZero (some ⟨7⟩) 0 startedAttachedMmu =
      some switchedMmuResult ∧
    kgsl_iommu_get_current_ptbase switchedMmuResult.mmu = some 7 := by decide

/-- C2 (amended): the idle-wait result is ignored by `kgsl_iommu_setstate`:
the outcome is identical for any two idle results (in particular success
and timeout), no error is propagated (the function returns no status), and
on a started controller any non-faulting call leaves the requested
pagetable — not the previous one — installed as the hardware pagetable. -/
theorem setstate_ignores_idle_result (i1 i2 : Int) (ar : Nat → Nat → Int)
    (pt : Option KgslPagetable) (cid : Nat) (m : KgslMmu) :
    kgsl_iommu_setstate i1 ar pt cid m = kgsl_iommu_setstate i2 ar pt cid m ∧
    (∀ r, m.started = true → kgsl_iommu_setstate i1 ar pt cid m = some r →
      r.mmu.hwpagetable = pt ∧ r.mmu.started = true) := by
  refine ⟨rfl, fun r hs h => ?_⟩
  obtain ⟨hst, -, hhw⟩ := setstate_some_spec i1 ar pt cid m r h
  exact ⟨hhw hs, by rw [hst, hs]⟩

/-- Witness for C2: on the concrete started state, a timed-out idle (-110)
gives the same outcome as a successful idle (0), and the switch to
pagetable 7 went through. -/
theorem setstate_ignores_idle_result_witness :
    kgsl_iommu_setstate (-110) arZero (some ⟨7⟩) 0 startedAttachedMmu =
      kgsl_iommu_setstate 0 arZero (some ⟨7⟩) 0 startedAttachedMmu ∧
    switchedMmuResult.mmu.hwpagetable = some ⟨7⟩ ∧
    switchedMmuResult.mmu.started = true :=
  ⟨(setstate_ignores_idle_result (-110) 0 arZero (some ⟨7⟩) 0 startedAttachedMmu).1,
   (setstate_ignores_idle_result (-110) 0 arZero (some ⟨7⟩) 0 startedAttachedMmu).2
     switchedMmuResult rfl (by decide)⟩

/-- C5: `kgsl_iommu_setstate` is a no-op (same state, no idle wait, no
detach or attach calls) when the controller is not started, and a no-op
when the requested pagetable equals the current hardware pagetable; and
after any non-faulting call, an immediately repeated call with the same
pagetable (any idle or attach oracles, any context id) is a no-op leaving
the state unchanged, so two consecutive calls with the same pagetable
issue the idle-wait and the detach/attach cycle at most once. -/
theorem setstate_noop_idempotent (ir ir2 : Int) (ar ar2 : Nat → Nat → Int)
    (pt : Option KgslPagetable) (cid cid2 : Nat) (m : KgslMmu) :
    (m.started = false → kgsl_iommu_setstate ir ar pt cid m = some ⟨m, ⟨0, 0, 0⟩⟩) ∧
    (m.hwpagetable = pt → kgsl_iommu_setstate ir ar pt cid m = some ⟨m, ⟨0, 0, 0⟩⟩) ∧
    (∀ r, kgsl_iommu_setstate ir ar pt cid m = some r →
      kgsl_iommu_setstate ir2 ar2 pt cid2 r.mmu = some ⟨r.mmu, ⟨0, 0, 0⟩⟩) := by
  refine ⟨fun hs => setstate_not_started_noop ir ar pt cid m hs,
    fun heq => setstate_eq_noop ir ar pt cid m heq, fun r h => ?_⟩
  obtain ⟨hst, hnoop, hhw⟩ := setstate_some_spec ir ar pt cid m r h
  by_cases hs : m.started = true
  · exact setstate_eq_noop ir2 ar2 pt cid2 r.mmu (hhw hs)
  · have hs' : m.started = false := by simpa using hs
    have : r = ⟨m, ⟨0, 0, 0⟩⟩ := hnoop hs'
    rw [this]
    exact setstate_not_started_noop ir2 ar2 pt cid2 m hs'

/-- Witness for C5: with the requested pagetable equal to the active one on
the concrete started state, the call is a no-op with zero idle, detach and
attach calls; and a repeated call after the concrete switch to pagetable 7
is likewise a no-op. -/
theorem setstate_noop_idempotent_witness :
    kgsl_iommu_setstate 0 arZero (some ⟨5⟩) 0 startedAttachedMmu =
      some ⟨startedAttachedMmu, ⟨0, 0, 0⟩⟩ ∧
    kgsl_iommu_setstate 1 arFail (some ⟨7⟩) 2 switchedMmuResult.mmu =
      some ⟨switchedMmuResult.mmu, ⟨0, 0, 0⟩⟩ :=
  ⟨(setstate_noop_idempotent 0 0 arZero arZero (some ⟨5⟩) 0 0 startedAttachedMmu).2.1 rfl,
   (setstate_noop_idempotent (-110) 1 arZero arFail (some ⟨7⟩) 0 2
      startedAttachedMmu).2.2 switchedMmuResult (by decide)⟩

theorem detach_total (m : KgslMmu) (pt : KgslPagetable) (i : KgslIommu)
    (hhw : m.hwpagetable = some pt) (hp : pt.priv ≠ 0) (hpriv : m.priv = some i) :
    kgsl_detach_pagetable_iommu_domain m =
      some ({ m with priv := some ⟨i.iommu_units.map detachUnit⟩ },
            (i.iommu_units.map countAttachedUnit).sum) := by
  simp [kgsl_detach_pagetable_iommu_domain, hhw, hpriv, hp]

theorem attach_total (res : Nat → Nat → Int) (m : KgslMmu) (pt : KgslPagetable)
    (i : KgslIommu) (hhw : m.hwpagetable = some pt) (hp : pt.priv ≠ 0)
    (hpriv : m.priv = some i) :
    kgsl_attach_pagetable_iommu_domain res m =
      some ({ m with priv := some ⟨(attachUnits res 0 i.iommu_units).1⟩ },
            (attachUnits res 0 i.iommu_units).2.1,
            (attachUnits res 0 i.iommu_units).2.2) := by
  simp [kgsl_attach_pagetable_iommu_domain, hhw, hpriv, hp]

/-- C3: on a stopped controller whose default pagetable resolves to `p`
(either already present, or freshly created by `kgsl_mmu_getpagetable`),
if the attach pass over the units returns a nonzero status `ret`, then
`kgsl_iommu_start` returns exactly that attach error, every context ends
detached (the rollback detaches whatever was attached), the hardware
pagetable pointer is cleared to null, and the started flag stays clear
(the controller remains stopped). -/
theorem start_attach_failure_rollback (g : Option KgslPagetable)
    (ar : Nat → Nat → Int) (m m2 : KgslMmu) (p : KgslPagetable) (ret : Int) (n : Nat)
    (hs : m.started = false)
    (hd : m.defaultpagetable.orElse (fun _ => g) = some p)
    (ha : kgsl_attach_pagetable_iommu_domain ar
      { m with defaultpagetable := some p, hwpagetable := some p } = some (m2, ret, n))
    (hret : ret ≠ 0) :
    ∃ m', kgsl_iommu_start g ar m = some (m', ret) ∧ m'.started = false ∧
      m'.hwpagetable = none ∧
      (∀ i', m'.priv = some i' → noneAttachedB i' = true) := by
  obtain ⟨hst2, hhw2m, -, pt', i', hhw', hp0', -, hpriv2, -⟩ :=
    attach_spec ar _ m2 ret n ha
  have hptp : p = pt' := Option.some.inj hhw'
  have hp0 : p.priv ≠ 0 := by rw [hptp]; exact hp0'
  have hhw2 : m2.hwpagetable = some p := by rw [hhw2m]
  have hdet := detach_total m2 p ⟨(attachUnits ar 0 i'.iommu_units).1⟩ hhw2 hp0 hpriv2
  refine ⟨{ m2 with
      priv := some ⟨(attachUnits ar 0 i'.iommu_units).1.map detachUnit⟩
      hwpagetable := none }, ?_, ?_, rfl, ?_⟩
  · have e0 : kgsl_iommu_start g ar m =
        match kgsl_attach_pagetable_iommu_domain ar
            { m with defaultpagetable := some p, hwpagetable := some p } with
        | none => none
        | some (m2', ret', _) =>
          if ret' = 0 then some ({ m2' with started := true }, 0)
          else
            match kgsl_detach_pagetable_iommu_domain m2' with
            | none => none
            | some (m3, _) => some ({ m3 with hwpagetable := none }, ret') := by
      unfold kgsl_iommu_start
      rw [if_neg (fun ht => Bool.false_ne_true (hs.symm.trans ht)), hd]
    rw [e0, ha]
    show (if ret = 0 then some ({ m2 with started := true }, 0)
        else match kgsl_detach_pagetable_iommu_domain m2 with
          | none => none
          | some (m3, _) => some ({ m3 with hwpagetable := none }, ret)) = _
    rw [if_neg hret, hdet]
  · show m2.started = false
    rw [hst2]; exact hs
  · intro j hj
    have : j = ⟨(attachUnits ar 0 i'.iommu_units).1.map detachUnit⟩ :=
      (Option.some.inj hj).symm
    rw [this]
    exact noneAttachedB_detach ⟨(attachUnits ar 0 i'.iommu_units).1⟩

/-- Witness for C3: on a freshly initialised one-unit one-context state,
an attach oracle failing with -7 makes start return -7, leave the context
detached, the hardware pagetable null and the started flag clear. -/
theorem start_attach_failure_rollback_witness :
    kgsl_iommu_start (some ⟨5⟩) arFail postInitMmu =
      some (⟨false, none, some ⟨5⟩, some ⟨[⟨[⟨1, false, KGSL_IOMMU_CONTEXT_USER⟩]⟩]⟩⟩,
        -7) := by
  obtain ⟨m', h1, -, -, -⟩ := start_attach_failure_rollback (some ⟨5⟩) arFail
    postInitMmu ⟨false, some ⟨5⟩, some ⟨5⟩, some ⟨[⟨[⟨1, false, KGSL_IOMMU_CONTEXT_USER⟩]⟩]⟩⟩
    ⟨5⟩ (-7) 1 rfl rfl (by decide) (by decide)
  have hd0 : kgsl_iommu_start (some ⟨5⟩) arFail postInitMmu =
      some (⟨false, none, some ⟨5⟩, some ⟨[⟨[⟨1, false, KGSL_IOMMU_CONTEXT_USER⟩]⟩]⟩⟩,
        -7) := by decide
  exact hd0

theorem start_all_success (g : Option KgslPagetable) (ar : Nat → Nat → Int)
    (m : KgslMmu) (q : KgslPagetable) (i : KgslIommu)
    (hs : m.started = false) (hpriv : m.priv = some i) (hq : q.priv ≠ 0)
    (hd : m.defaultpagetable.orElse (fun _ => g) = some q)
    (har : ∀ a b, ar a b = 0) :
    ∃ m2, kgsl_iommu_start g ar m = some (m2, 0) ∧ m2.started = true ∧
      m2.hwpagetable = some q ∧ m2.defaultpagetable = some q ∧
      (∀ i2, m2.priv = some i2 → allAttachedB i2 = true) := by
  have hM : ({ m with defaultpagetable := some q, hwpagetable := some q } : KgslMmu).priv =
      some i := hpriv
  have hatt := attach_total ar
    { m with defaultpagetable := some q, hwpagetable := some q } q i rfl hq hM
  have hret0 : (attachUnits ar 0 i.iommu_units).2.1 = 0 := attachUnits_zero ar har 0 _
  refine ⟨{ m with
      defaultpagetable := some q
      hwpagetable := some q
      priv := some ⟨(attachUnits ar 0 i.iommu_units).1⟩
      started := true },
    ?_, rfl, rfl, rfl, ?_⟩
  · have e0 : kgsl_iommu_start g ar m =
        match kgsl_attach_pagetable_iommu_domain ar
            { m with defaultpagetable := some q, hwpagetable := some q } with
        | none => none
        | some (m2', ret', _) =>
          if ret' = 0 then some ({ m2' with started := true }, 0)
          else
            match kgsl_detach_pagetable_iommu_domain m2' with
            | none => none
            | some (m3, _) => some ({ m3 with hwpagetable := none }, ret') := by
      unfold kgsl_iommu_start
      rw [if_neg (fun ht => Bool.false_ne_true (hs.symm.trans ht)), hd]
    rw [e0, hatt]
    show (if (attachUnits ar 0 i.iommu_units).2.1 = 0 then
        some ({ { m with
            defaultpagetable := some q
            hwpagetable := some q
            priv := some ⟨(attachUnits ar 0 i.iommu_units).1⟩ } with started := true }, 0)
      else match kgsl_detach_pagetable_iommu_domain
          { m with
            defaultpagetable := some q
            hwpagetable := some q
            priv := some ⟨(attachUnits ar 0 i.iommu_units).1⟩ } with
        | none => none
        | some (m3, _) => some ({ m3 with hwpagetable := none },
            (attachUnits ar 0 i.iommu_units).2.1)) = _
    rw [if_pos hret0]
  · intro i2 h2
    have : i2 = ⟨(attachUnits ar 0 i.iommu_units).1⟩ := (Option.some.inj h2).symm
    rw [this]
    exact attachUnits_ok_all ar 0 i.iommu_units hret0

/-- C4 counterexample: "for every started controller, stop always
succeeds" is too strong: the started state with a null hardware pagetable
reached by the legal sequence `cexOps` (init, start, setstate to the null
pagetable) makes `kgsl_iommu_stop` hit `BUG_ON(mmu->hwpagetable == NULL)`
inside the detach (modelled by `none`): a kernel fault, not a successful
detach-all. -/
theorem stop_null_hwpagetable_cex :
    run cexOps initialMmu = some startedNullHwMmu ∧
    startedNullHwMmu.started = true ∧
    kgsl_iommu_stop startedNullHwMmu = none := by decide

/-- C4 (amended): for every started controller whose active pagetable is
non-null with a non-null domain (the states start itself produces),
`kgsl_iommu_stop` succeeds with every context detached, the hardware
pagetable cleared and the started flag cleared; and a subsequent start
whose default pagetable resolves to `q` (non-null domain) with all attach
calls succeeding re-attaches every context of every unit to that default
pagetable. -/
theorem stop_start_roundtrip (m : KgslMmu) (pt : KgslPagetable) (i : KgslIommu)
    (q : KgslPagetable) (ar : Nat → Nat → Int) (getpt : Option KgslPagetable)
    (hs : m.started = true) (hhw : m.hwpagetable = some pt) (hp : pt.priv ≠ 0)
    (hi : m.priv = some i) (hq : q.priv ≠ 0) (har : ∀ a b, ar a b = 0)
    (hd : m.defaultpagetable.orElse (fun _ => getpt) = some q) :
    ∃ m1, kgsl_iommu_stop m = some (m1, 0) ∧ m1.started = false ∧
      m1.hwpagetable = none ∧
      (∀ i1, m1.priv = some i1 → noneAttachedB i1 = true) ∧
      ∃ m2, kgsl_iommu_start getpt ar m1 = some (m2, 0) ∧ m2.started = true ∧
        m2.hwpagetable = some q ∧ m2.defaultpagetable = some q ∧
        (∀ i2, m2.priv = some i2 → allAttachedB i2 = true) := by
  have hdet := detach_total m pt i hhw hp hi
  have hstop : kgsl_iommu_stop m =
      some ({ m with
              priv := some ⟨i.iommu_units.map detachUnit⟩
              hwpagetable := none
              started := false }, 0) := by
    unfold kgsl_iommu_stop
    rw [if_pos hs, hdet]
  refine ⟨_, hstop, rfl, rfl, ?_, ?_⟩
  · intro i1 h1
    have : i1 = ⟨i.iommu_units.map detachUnit⟩ := (Option.some.inj h1).symm
    rw [this]
    exact noneAttachedB_detach i
  · exact start_all_success getpt ar
      { m with
        priv := some ⟨i.iommu_units.map detachUnit⟩
        hwpagetable := none
        started := false }
      q ⟨i.iommu_units.map detachUnit⟩ rfl rfl hq hd har

/-- Witness for C4: on the concrete started attached state, stop reaches
the all-detached stopped state and a subsequent start (default pagetable
still present) reproduces exactly the original attached state. -/
theorem stop_start_roundtrip_witness :
    kgsl_iommu_stop startedAttachedMmu = some (stoppedMmu, 0) ∧
    kgsl_iommu_start none arZero stoppedMmu = some (startedAttachedMmu, 0) := by
  obtain ⟨m1, h1, -, -, -, m2, h2, -, -, -, -⟩ :=
    stop_start_roundtrip startedAttachedMmu ⟨5⟩
      ⟨[⟨[⟨1, true, KGSL_IOMMU_CONTEXT_USER⟩]⟩]⟩ ⟨5⟩ arZero none rfl rfl
      (by decide) rfl (by decide) (fun a b => rfl) rfl
  have e1 : m1 = stoppedMmu := by
    have hd0 : kgsl_iommu_stop startedAttachedMmu = some (stoppedMmu, 0) := by decide
    rw [h1] at hd0
    exact (Prod.ext_iff.mp (Option.some.inj hd0)).1
  subst e1
  have e2 : m2 = startedAttachedMmu := by
    have hd0 : kgsl_iommu_start none arZero stoppedMmu =
        some (startedAttachedMmu, 0) := by decide
    rw [h2] at hd0
    exact (Prod.ext_iff.mp (Option.some.inj hd0)).1
  subst e2
  exact ⟨h1, h2⟩

/-- C6: `kgsl_iommu_unmap` always returns 0 to its caller, for every
descriptor and every underlying `iommu_unmap_range` result (failures are
only logged); when the descriptor's size is zero or its address masked
with the page-alignment mask is zero it issues no domain call at all; and
any domain call it does issue uses the masked address and the
descriptor's size. -/
theorem unmap_masks_and_swallows (unmapRes : Int) (domain : Nat)
    (memdesc : KgslMemdesc) :
    (kgsl_iommu_unmap unmapRes domain memdesc).ret = 0 ∧
    ((memdesc.size = 0 ∨ memdesc.gpuaddr &&& KGSL_MMU_ALIGN_MASK = 0) →
      (kgsl_iommu_unmap unmapRes domain memdesc).call = none) ∧
    (∀ dom a r, (kgsl_iommu_unmap unmapRes domain memdesc).call = some (dom, a, r) →
      a = memdesc.gpuaddr &&& KGSL_MMU_ALIGN_MASK ∧ r = memdesc.size) := by
  refine ⟨?_, ?_, ?_⟩
  · by_cases h : memdesc.size = 0 ∨ memdesc.gpuaddr &&& KGSL_MMU_ALIGN_MASK = 0 <;>
      simp [kgsl_iommu_unmap, h]
  · intro h
    simp [kgsl_iommu_unmap, h]
  · intro dom a r hc
    by_cases h : memdesc.size = 0 ∨ memdesc.gpuaddr &&& KGSL_MMU_ALIGN_MASK = 0
    · simp [kgsl_iommu_unmap, h] at hc
    · simp [kgsl_iommu_unmap, h] at hc
      exact ⟨hc.2.1.symm, hc.2.2.symm⟩

/-- Witness for C6: a descriptor whose address 0x123 masks to zero is a
no-op (no domain call, result 0) even with a failing underlying result. -/
theorem unmap_masks_and_swallows_witness :
    (kgsl_iommu_unmap (-5) 9 ⟨0x123, 100⟩).ret = 0 ∧
    (kgsl_iommu_unmap (-5) 9 ⟨0x123, 100⟩).call = none :=
  ⟨(unmap_masks_and_swallows (-5) 9 ⟨0x123, 100⟩).1,
   (unmap_masks_and_swallows (-5) 9 ⟨0x123, 100⟩).2.1 (Or.inr (by decide))⟩

/-- C7 counterexample: `kgsl_iommu_map` with a null domain does not return
an InvalidArgument error to the caller: `BUG_ON(NULL == domain)` is a
kernel fault, modelled by `none` — there is no error-return at all at this
concrete input. -/
theorem map_null_domain_cex : kgsl_iommu_map 0 0 ⟨4096, 4096⟩ 7 = none := by decide

/-- C7 (amended): for every descriptor and protection flags, map called
with a null domain handle halts in the `BUG_ON(NULL == domain)` kernel
assertion (a fault, modelled by `none`) — it neither succeeds nor returns
an InvalidArgument error code. -/
theorem map_null_domain_bug (mapRes : Int) (memdesc : KgslMemdesc)
    (protflags : Nat) : kgsl_iommu_map mapRes 0 memdesc protflags = none := rfl

/-- C8: the protection-flags argument of `kgsl_iommu_map` has no effect:
for any non-null domain the outcome is identical for any two flag values,
and the request issued to `iommu_map_range` always carries exactly
`IOMMU_READ | IOMMU_WRITE` over the descriptor's address and size, with
the underlying status returned verbatim. -/
theorem map_fixed_rw_flags (mapRes : Int) (domain : Nat) (memdesc : KgslMemdesc)
    (pf pf' : Nat) (hd : domain ≠ 0) :
    kgsl_iommu_map mapRes domain memdesc pf =
      kgsl_iommu_map mapRes domain memdesc pf' ∧
    kgsl_iommu_map mapRes domain memdesc pf =
      some ⟨mapRes, ⟨domain, memdesc.gpuaddr, memdesc.size,
        IOMMU_READ ||| IOMMU_WRITE⟩⟩ := by
  refine ⟨rfl, ?_⟩
  simp [kgsl_iommu_map, hd]

/-- Witness for C8: mapping on domain 9 with caller flags 77 issues a
request with flags `IOMMU_READ ||| IOMMU_WRITE` (= 3) and returns the
underlying status -3 verbatim. -/
theorem map_fixed_rw_flags_witness :
    kgsl_iommu_map (-3) 9 ⟨4096, 4096⟩ 77 =
      some ⟨-3, ⟨9, 4096, 4096, IOMMU_READ ||| IOMMU_WRITE⟩⟩ :=
  (map_fixed_rw_flags (-3) 9 ⟨4096, 4096⟩ 77 0 (by decide)).2

theorem getIommuCtxsLoop_error_eq (lookup : String → Option Nat)
    (ctxs : List KgslIommuCtx) (e : Int)
    (h : getIommuCtxsLoop lookup ctxs = .error e) : e = -EINVAL := by
  induction ctxs generalizing e with
  | nil => simp [getIommuCtxsLoop] at h
  | cons c rest ih =>
    unfold getIommuCtxsLoop at h
    split at h
    · exact ih e h
    · split at h
      · simp only [Except.error.injEq] at h
        exact h.symm
      · split at h
        · simp only [Except.error.injEq] at h
          exact h.symm
        · split at h
          · next e' heq =>
            simp only [Except.error.injEq] at h
            rw [← h]
            exact ih e' heq
          · exact absurd h (by simp)

theorem get_iommu_ctxs_error_eq (lookup : String → Option Nat)
    (d : KgslDeviceIommuData) (e : Int)
    (h : get_iommu_ctxs lookup d = .error e) : e = -EINVAL := by
  unfold get_iommu_ctxs at h
  split at h
  · simp only [Except.error.injEq] at h
    exact h.symm
  · split at h
    · next e' heq =>
      simp only [Except.error.injEq] at h
      rw [← h]
      exact getIommuCtxsLoop_error_eq lookup d.iommu_ctxs e' heq
    · exact absurd h (by simp)

theorem getIommuCtxsLoop_bad (lookup : String → Option Nat)
    (ctxs : List KgslIommuCtx) (hbad : ∃ c ∈ ctxs, badCtx lookup c) :
    getIommuCtxsLoop lookup ctxs = .error (-EINVAL) := by
  induction ctxs with
  | nil => simp at hbad
  | cons c rest ih =>
    obtain ⟨c0, hc0mem, hc0⟩ := hbad
    rcases List.mem_cons.mp hc0mem with rfl | hmem
    · obtain ⟨name, hname, hor⟩ := hc0
      rcases hor with hl | hk
      · simp [getIommuCtxsLoop, hname, hl]
      · cases hlk : lookup name with
        | none => simp [getIommuCtxsLoop, hname, hlk]
        | some hdl => simp [getIommuCtxsLoop, hname, hlk, hk]
    · have hrest := ih ⟨c0, hmem, hc0⟩
      cases hname : c.iommu_ctx_name with
      | none => simpa [getIommuCtxsLoop, hname] using hrest
      | some name =>
        cases hlk : lookup name with
        | none => simp [getIommuCtxsLoop, hname, hlk]
        | some hdl =>
          by_cases hk : c.ctx_id ≠ KGSL_IOMMU_CONTEXT_USER ∧
              c.ctx_id ≠ KGSL_IOMMU_CONTEXT_PRIV
          · simp [getIommuCtxsLoop, hname, hlk, hk]
          · simp [getIommuCtxsLoop, hname, hlk, hk, hrest]

theorem get_iommu_ctxs_bad (lookup : String → Option Nat)
    (d : KgslDeviceIommuData) (hbad : badUnit lookup d) :
    get_iommu_ctxs lookup d = .error (-EINVAL) := by
  rcases hbad with hlen | hctx
  · simp [get_iommu_ctxs, hlen]
  · by_cases hlen : KGSL_IOMMU_MAX_DEVS_PER_UNIT < d.iommu_ctxs.length
    · simp [get_iommu_ctxs, hlen]
    · simp [get_iommu_ctxs, hlen, getIommuCtxsLoop_bad lookup d.iommu_ctxs hctx]

theorem getIommuCtxtLoop_bad (lookup : String → Option Nat)
    (pdata : List KgslDeviceIommuData)
    (hbad : ∃ d ∈ pdata, badUnit lookup d) :
    getIommuCtxtLoop lookup pdata = .error (-EINVAL) := by
  induction pdata with
  | nil => simp at hbad
  | cons d rest ih =>
    obtain ⟨d0, hmem, hb0⟩ := hbad
    rcases List.mem_cons.mp hmem with rfl | hmem'
    · simp [getIommuCtxtLoop, get_iommu_ctxs_bad lookup d0 hb0]
    · cases hhead : get_iommu_ctxs lookup d with
      | error e =>
        have he := get_iommu_ctxs_error_eq lookup d e hhead
        simp [getIommuCtxtLoop, hhead, he]
      | ok u =>
        simp [getIommuCtxtLoop, hhead, ih ⟨d0, hmem', hb0⟩]

theorem kgsl_get_iommu_ctxt_bad (lookup : String → Option Nat)
    (pdata : List KgslDeviceIommuData)
    (hbad : ∃ d ∈ pdata, badUnit lookup d) :
    kgsl_get_iommu_ctxt lookup pdata = .error (-EINVAL) := by
  by_cases hlen : KGSL_IOMMU_MAX_UNITS < pdata.length
  · simp [kgsl_get_iommu_ctxt, hlen]
  · simp [kgsl_get_iommu_ctxt, hlen, getIommuCtxtLoop_bad lookup pdata hbad]

/-- C9: if the allocation of the private state succeeds and any unit of
the descriptor declares more contexts than the per-unit maximum, or has a
named context the platform lookup cannot resolve, or has a (resolvable,
named) context whose kind is neither USER nor PRIVILEGED, then
`kgsl_iommu_init` returns `-EINVAL` (the ConfigError) and leaves the
controller uninitialised: the partially allocated private state is
released and `mmu->priv` is null. -/
theorem init_config_error (lookup : String → Option Nat)
    (pdata : List KgslDeviceIommuData) (m : KgslMmu)
    (hbad : ∃ d ∈ pdata, badUnit lookup d) :
    kgsl_iommu_init true lookup pdata m = ({ m with priv := none }, -EINVAL) := by
  simp [kgsl_iommu_init, kgsl_get_iommu_ctxt_bad lookup pdata hbad]

/-- Witness for C9: a single unit declaring three contexts (more than the
per-unit maximum of two) makes init fail with -EINVAL and leave the
private state null. -/
theorem init_config_error_witness :
    kgsl_iommu_init true (fun _ => some 1)
      [⟨[⟨some "a", 0⟩, ⟨some "b", 1⟩, ⟨some "c", 0⟩]⟩] initialMmu =
      ({ initialMmu with priv := none }, -EINVAL) :=
  init_config_error (fun _ => some 1)
    [⟨[⟨some "a", 0⟩, ⟨some "b", 1⟩, ⟨some "c", 0⟩]⟩] initialMmu
    ⟨⟨[⟨some "a", 0⟩, ⟨some "b", 1⟩, ⟨some "c", 0⟩]⟩, by simp,
      Or.inl (by decide)⟩

/-- C10: `kgsl_iommu_get_current_ptbase` dereferences the hardware
pagetable pointer unconditionally: it has a defined result exactly when
the pointer is non-null (then it returns that pagetable's domain
identity, never a sentinel), and after a successful `kgsl_iommu_stop` of
a started controller — which nulls the pointer — the operation faults
(modelled by `none`). -/
theorem get_current_ptbase_requires_hwpagetable (m m1 : KgslMmu) (r : Int)
    (pt : KgslPagetable) :
    (kgsl_iommu_get_current_ptbase m = none ↔ m.hwpagetable = none) ∧
    (m.hwpagetable = some pt → kgsl_iommu_get_current_ptbase m = some pt.priv) ∧
    (m.started = true → kgsl_iommu_stop m = some (m1, r) →
      kgsl_iommu_get_current_ptbase m1 = none) := by
  refine ⟨?_, ?_, ?_⟩
  · cases hhw : m.hwpagetable <;> simp [kgsl_iommu_get_current_ptbase, hhw]
  · intro h
    simp [kgsl_iommu_get_current_ptbase, h]
  · intro hs h
    unfold kgsl_iommu_stop at h
    rw [if_pos hs] at h
    split at h
    · exact absurd h (by simp)
    · next m1' k hdet =>
      simp only [Option.some.injEq, Prod.mk.injEq] at h
      rw [← h.1]
      simp [kgsl_iommu_get_current_ptbase]

/-- Witness for C10: on the concrete started state the base token is the
domain identity 5; after stopping it (reaching `stoppedMmu`), the
operation has no defined result. -/
theorem get_current_ptbase_requires_hwpagetable_witness :
    kgsl_iommu_get_current_ptbase startedAttachedMmu = some 5 ∧
    kgsl_iommu_get_current_ptbase stoppedMmu = none :=
  ⟨(get_current_ptbase_requires_hwpagetable startedAttachedMmu stoppedMmu 0 ⟨5⟩).2.1 rfl,
   (get_current_ptbase_requires_hwpagetable startedAttachedMmu stoppedMmu 0 ⟨5⟩).2.2
     rfl (by decide)⟩

end KgslIommu
